import Mathlib

/-!
Shallow embedding of the flight-analysis backend (src/app/routes.py and
src/app/analysis.py) and proofs about the claims of its specification.

Modelling conventions:
* Python floats are modelled as rationals (ℚ); the markup literal 1.08 is 27/25.
* A Python dict keyed by airline name is an association list; the airline list
  in the code has pairwise-distinct names, so insertion order and key lookup
  coincide with the association-list view.
* Python's `sorted` is a stable ascending sort; it is embedded as
  `List.insertionSort` on the price component, which is stable and sorted,
  hence extensionally equal to any stable ascending sort.
* An out-of-range list subscript (Python IndexError) is modelled by `Option`:
  `none` marks the raised exception.
-/

namespace FlightApp

/-- Module-level function names defined in src/app/analysis.py (the analysis
module defines exactly one function, `get_num`). -/
def analysisModuleFunctions : List String := ["get_num"]

/-- The attribute name that src/app/routes.py reads off the analysis module in
the quote-gathering loops of both handlers (lines 26-27 and 63-64):
`analysis.get_predict(...)`. -/
def routesOracleAttribute : String := "get_predict"

/-- Python attribute resolution on a module: the accessed name resolves iff it
is among the module's definitions; otherwise an AttributeError is raised. -/
def resolvesOn (defs : List String) (attr : String) : Bool := defs.contains attr

/-- The candidate airline set hard-coded identically in both handlers
(routes.py lines 8 and 52). -/
def airlines : List String := ["IndiGo", "Air India", "SpiceJet", "Vistara"]

/-- The route query taken from request parameters: departure city, destination
city, departure date, return date (routes.py lines 9-12 and 53-56). -/
structure RouteQuery where
  dep : String
  dest : String
  depdate : String
  backdate : String

/-- The price oracle: (airline, date, source, destination, total_stops,
additional_info, route) to a price. -/
abbrev Oracle := String → String → String → String → String → String → ℚ → ℚ

/-- Constant total_stops argument used by both handlers. -/
def totalStops : String := "non-stop"

/-- Constant additional-info argument used by both handlers. -/
def noInfo : String := "no-info"

/-- The outbound-quote dictionary built by the loop (routes.py lines 25-28
and 62-65): one oracle call per airline with
(airline, departure_date, departure, destination). -/
def quotesDep (f : Oracle) (al : List String) (q : RouteQuery) : List (String × ℚ) :=
  al.map (fun a => (a, f a q.depdate q.dep q.dest totalStops noInfo 1))

/-- The return-quote dictionary built by the same loop: one oracle call per
airline with (airline, back_date, destination, departure) - the swapped
city pair. -/
def quotesBack (f : Oracle) (al : List String) (q : RouteQuery) : List (String × ℚ) :=
  al.map (fun a => (a, f a q.backdate q.dest q.dep totalStops noInfo 1))

/-- Comparison used by Python sorted(..., key=lambda item: item[1]):
ascending by the price component. -/
def leQ (a b : String × ℚ) : Prop := a.2 ≤ b.2

instance : DecidableRel leQ := fun a b => inferInstanceAs (Decidable (a.2 ≤ b.2))

instance : IsTotal (String × ℚ) leQ := ⟨fun a b => le_total a.2 b.2⟩

instance : IsTrans (String × ℚ) leQ := ⟨fun _ _ _ h₁ h₂ => le_trans h₁ h₂⟩

/-- The dict rebuild `{k: v for k, v in sorted(d.items(), key=...item[1])}`
(routes.py lines 30-31 and 67-68): a stable ascending sort by price. -/
def sortByPrice (l : List (String × ℚ)) : List (String × ℚ) :=
  List.insertionSort leQ l

/-- Python dict subscript d[k] on the association-list view (all keys in the
code are distinct airline names, so the first match is the only match). -/
def dictGet (l : List (String × ℚ)) (k : String) : ℚ := (l.lookup k).getD 0

/-- One entry of a handler response: the comma-joined airline pair and its
price. -/
structure PriceEntry where
  airlines : String
  price : ℚ
deriving DecidableEq, Repr

/-- Handler of GET /api/data (routes.py lines 6-48), restricted to the prices
list it returns. Both quote dictionaries are sorted ascending by price; entry
i joins the i-th key of each sorted dictionary, looks both prices up by key,
and marks the sum up by 1.08. The loop runs over the indices of
dest_airlines. -/
def get_predict (f : Oracle) (al : List String) (q : RouteQuery) : List PriceEntry :=
  let spd := sortByPrice (quotesDep f al q)
  let spb := sortByPrice (quotesBack f al q)
  let dest_airlines := spd.map Prod.fst
  let back_airlines := spb.map Prod.fst
  (List.range dest_airlines.length).map (fun i =>
    let dest_airline := dest_airlines.getD i ""
    let back_airline := back_airlines.getD i ""
    { airlines := dest_airline ++ "," ++ back_airline
      price := (dictGet spd dest_airline + dictGet spb back_airline) * (27/25) })

/-- Handler of GET /api/data/lowestcost (routes.py lines 50-84). It takes the
first key of each sorted dictionary (`dest_airlines[0]`, `back_airlines[0]`;
`none` models the IndexError raised when the list is empty), looks the two
prices up by key and returns their plain sum: no markup factor is applied on
this path (lines 76-80). -/
def get_lowest_price (f : Oracle) (al : List String) (q : RouteQuery) : Option PriceEntry :=
  let spd := sortByPrice (quotesDep f al q)
  let spb := sortByPrice (quotesBack f al q)
  let dest_airlines := spd.map Prod.fst
  let back_airlines := spb.map Prod.fst
  match dest_airlines.head?, back_airlines.head? with
  | some cheapest_dest_airline, some cheapest_back_airline =>
      some { airlines := cheapest_dest_airline ++ "," ++ cheapest_back_airline
             price := dictGet spd cheapest_dest_airline + dictGet spb cheapest_back_airline }
  | _, _ => none

/-- One call issued to the price oracle (the constant total_stops, info and
route arguments are omitted: they never vary). -/
structure OracleCall where
  airline : String
  date : String
  source : String
  destination : String
deriving DecidableEq, Repr

/-- The sequence of oracle calls issued by the quote-gathering loop shared by
both handlers (routes.py lines 25-29 and 62-66): for each airline in order,
first the outbound call (departure_date, departure, destination), then the
return call (back_date, destination, departure). -/
def oracleCallTrace (al : List String) (q : RouteQuery) : List OracleCall :=
  al.flatMap (fun a =>
    [{ airline := a, date := q.depdate, source := q.dep, destination := q.dest },
     { airline := a, date := q.backdate, source := q.dest, destination := q.dep }])

/-- Python int() on a rational: truncation toward zero. -/
def pyInt (q : ℚ) : ℤ := if 0 ≤ q then ⌊q⌋ else ⌈q⌉

/-- get_num from src/app/analysis.py lines 9-24: marshal the arguments into a
one-row frame, run the loaded model on it and return `int(prediction)`. The
opaque regression model is a parameter. -/
def get_num (model : Oracle) (airline date source destination total_stops additional_info : String)
    (route : ℚ) : ℤ :=
  pyInt (model airline date source destination total_stops additional_info route)

end FlightApp

namespace FlightApp

/-! ### Properties of the stable ascending sort -/

/-- The sort used by both handlers produces a list ascending by price. -/
theorem sortByPrice_sorted (l : List (String × ℚ)) : List.Sorted leQ (sortByPrice l) :=
  List.sorted_insertionSort leQ l

/-- The sort is a permutation of its input. -/
theorem sortByPrice_perm (l : List (String × ℚ)) : (sortByPrice l).Perm l :=
  List.perm_insertionSort leQ l

/-- Sorting preserves distinctness of the airline keys. -/
theorem sortByPrice_keys_nodup {l : List (String × ℚ)} (h : (l.map Prod.fst).Nodup) :
    ((sortByPrice l).map Prod.fst).Nodup :=
  (((sortByPrice_perm l).map Prod.fst).nodup_iff).mpr h

/-- Stability of the sort: the subsequence of entries quoting any fixed price
p is left in its original order. -/
theorem sortByPrice_filter_price (l : List (String × ℚ)) (p : ℚ) :
    (sortByPrice l).filter (fun x => decide (x.2 = p)) =
      l.filter (fun x => decide (x.2 = p)) := by
  have hmem : ∀ x ∈ l.filter (fun x => decide (x.2 = p)), x.2 = p := by
    intro x hx
    simpa using (List.mem_filter.mp hx).2
  have hpair : (l.filter (fun x => decide (x.2 = p))).Pairwise leQ :=
    List.pairwise_of_forall_mem_list (fun a ha b hb => by
      show a.2 ≤ b.2
      rw [hmem a ha, hmem b hb])
  have hsub : (l.filter (fun x => decide (x.2 = p))).Sublist (sortByPrice l) :=
    List.sublist_insertionSort hpair (List.filter_sublist l)
  have hsub2 := hsub.filter (fun x => decide (x.2 = p))
  rw [List.filter_eq_self.mpr (fun a ha => (List.mem_filter.mp ha).2)] at hsub2
  have hperm : ((sortByPrice l).filter (fun x => decide (x.2 = p))).Perm
      (l.filter (fun x => decide (x.2 = p))) :=
    (sortByPrice_perm l).filter _
  exact (hsub2.eq_of_length hperm.length_eq.symm).symm

/-- The first element of a price-sorted list quotes a minimal price. -/
theorem head_price_min {s : List (String × ℚ)} (hs : List.Sorted leQ s)
    {d : String × ℚ} (hd : s.head? = some d) : ∀ x ∈ s, d.2 ≤ x.2 := by
  cases s with
  | nil => cases hd
  | cons a t =>
    have had : a = d := by simpa using hd
    subst had
    intro x hx
    rcases List.mem_cons.mp hx with rfl | hx
    · exact le_refl _
    · exact (List.sorted_cons.mp hs).1 x hx

/-! ### Association-list (Python dict) lookups -/

/-- With distinct keys, looking a member's key up returns that member's
value. -/
theorem lookup_eq_of_mem :
    ∀ {l : List (String × ℚ)}, (l.map Prod.fst).Nodup →
      ∀ {p : String × ℚ}, p ∈ l → l.lookup p.1 = some p.2 := by
  intro l
  induction l with
  | nil => intro _ p hp; cases hp
  | cons x t ih =>
    intro h p hp
    rcases List.mem_cons.mp hp with rfl | hp
    · simp [List.lookup]
    · have hx : p.1 ≠ x.1 := by
        have hmem : p.1 ∈ t.map Prod.fst := List.mem_map_of_mem Prod.fst hp
        intro he
        exact (List.nodup_cons.mp h).1 (he ▸ hmem)
      have hbeq : (p.1 == x.1) = false := beq_false_of_ne hx
      rw [List.lookup, hbeq]
      exact ih (List.nodup_cons.mp h).2 hp

/-- Python dict subscript of a member's key, under distinct keys. -/
theorem dictGet_eq_of_mem {l : List (String × ℚ)} (h : (l.map Prod.fst).Nodup)
    {p : String × ℚ} (hp : p ∈ l) : dictGet l p.1 = p.2 := by
  rw [dictGet, lookup_eq_of_mem h hp, Option.getD_some]

/-! ### The quote dictionaries -/

/-- The keys of the outbound-quote dictionary are the airlines, in order. -/
theorem quotesDep_keys (f : Oracle) (al : List String) (q : RouteQuery) :
    (quotesDep f al q).map Prod.fst = al := by
  simp [quotesDep, Function.comp_def]

/-- The keys of the return-quote dictionary are the airlines, in order. -/
theorem quotesBack_keys (f : Oracle) (al : List String) (q : RouteQuery) :
    (quotesBack f al q).map Prod.fst = al := by
  simp [quotesBack, Function.comp_def]

theorem quotesDep_length (f : Oracle) (al : List String) (q : RouteQuery) :
    (quotesDep f al q).length = al.length := by
  simp [quotesDep]

theorem quotesBack_length (f : Oracle) (al : List String) (q : RouteQuery) :
    (quotesBack f al q).length = al.length := by
  simp [quotesBack]

end FlightApp

namespace FlightApp

/-! ### The all-combinations handler as a rank pairing -/

/-- Decomposition of membership in a zipWith. -/
theorem exists_of_mem_zipWith {α β γ : Type} {g : α → β → γ} :
    ∀ {l₁ : List α} {l₂ : List β} {z : γ}, z ∈ List.zipWith g l₁ l₂ →
      ∃ x, x ∈ l₁ ∧ ∃ y, y ∈ l₂ ∧ z = g x y := by
  intro l₁
  induction l₁ with
  | nil => intro l₂ z hz; cases hz
  | cons a t ih =>
    intro l₂ z hz
    cases l₂ with
    | nil => cases hz
    | cons b s =>
      rcases List.mem_cons.mp hz with rfl | hz
      · exact ⟨a, List.mem_cons_self a t, b, List.mem_cons_self b s, rfl⟩
      · obtain ⟨x, hx, y, hy, rfl⟩ := ih hz
        exact ⟨x, List.mem_cons_of_mem a hx, y, List.mem_cons_of_mem b hy, rfl⟩

/-- Summing two price-ascending lists rank by rank and scaling by a
non-negative factor yields an ascending price list. -/
theorem sorted_zipWith_markup {c : ℚ} (hc : 0 ≤ c) :
    ∀ (l₁ l₂ : List (String × ℚ)), List.Sorted leQ l₁ → List.Sorted leQ l₂ →
      List.Sorted (fun a b : ℚ => a ≤ b)
        (List.zipWith (fun d b => (d.2 + b.2) * c) l₁ l₂) := by
  intro l₁
  induction l₁ with
  | nil => intro l₂ _ _; simp
  | cons d ds ih =>
    intro l₂ h₁ h₂
    cases l₂ with
    | nil => simp
    | cons b bs =>
      rw [List.zipWith_cons_cons, List.sorted_cons]
      constructor
      · intro z hz
        obtain ⟨x, hx, y, hy, rfl⟩ := exists_of_mem_zipWith hz
        have hdx : d.2 ≤ x.2 := (List.sorted_cons.mp h₁).1 x hx
        have hby : b.2 ≤ y.2 := (List.sorted_cons.mp h₂).1 y hy
        exact mul_le_mul_of_nonneg_right (add_le_add hdx hby) hc
      · exact ih bs (List.sorted_cons.mp h₁).2 (List.sorted_cons.mp h₂).2

/-- With distinct airlines, the prices list of /api/data is exactly the
rank-by-rank zip of the two independently sorted quote lists, each rank's
prices summed and marked up by 1.08. -/
theorem get_predict_eq_zipWith (f : Oracle) (al : List String) (q : RouteQuery)
    (hnd : al.Nodup) :
    get_predict f al q =
      List.zipWith
        (fun d b => { airlines := d.1 ++ "," ++ b.1, price := (d.2 + b.2) * (27/25) : PriceEntry })
        (sortByPrice (quotesDep f al q)) (sortByPrice (quotesBack f al q)) := by
  have hdk : ((sortByPrice (quotesDep f al q)).map Prod.fst).Nodup :=
    sortByPrice_keys_nodup (by rw [quotesDep_keys]; exact hnd)
  have hbk : ((sortByPrice (quotesBack f al q)).map Prod.fst).Nodup :=
    sortByPrice_keys_nodup (by rw [quotesBack_keys]; exact hnd)
  have hdl : (sortByPrice (quotesDep f al q)).length = al.length := by
    rw [(sortByPrice_perm _).length_eq, quotesDep_length]
  have hbl : (sortByPrice (quotesBack f al q)).length = al.length := by
    rw [(sortByPrice_perm _).length_eq, quotesBack_length]
  apply List.ext_getElem
  · simp [get_predict, List.length_zipWith, hdl, hbl]
  · intro n h₁ h₂
    have hlen : (List.range ((sortByPrice (quotesDep f al q)).map Prod.fst).length).length =
        (sortByPrice (quotesDep f al q)).length := by simp
    have hn : n < (sortByPrice (quotesDep f al q)).length := by
      simpa [get_predict] using h₁
    have hnb : n < (sortByPrice (quotesBack f al q)).length := by
      rw [hbl, ← hdl]; exact hn
    simp only [get_predict, List.getElem_map, List.getElem_range, List.getElem_zipWith]
    have hd1 : ((sortByPrice (quotesDep f al q)).map Prod.fst).getD n "" =
        ((sortByPrice (quotesDep f al q))[n]).1 := by
      rw [List.getD_eq_getElem _ _ (by simpa using hn), List.getElem_map]
    have hb1 : ((sortByPrice (quotesBack f al q)).map Prod.fst).getD n "" =
        ((sortByPrice (quotesBack f al q))[n]).1 := by
      rw [List.getD_eq_getElem _ _ (by simpa using hnb), List.getElem_map]
    rw [hd1, hb1,
      dictGet_eq_of_mem hdk (List.getElem_mem hn),
      dictGet_eq_of_mem hbk (List.getElem_mem hnb)]

/-! ### The lowest-cost handler and the heads of the sorted lists -/

/-- With a non-empty, duplicate-free airline list, /api/data/lowestcost
returns the first entry of each sorted quote list, airline names joined by a
comma and prices summed with no markup. -/
theorem get_lowest_price_eq_heads (f : Oracle) (al : List String) (q : RouteQuery)
    (hne : al ≠ []) (hnd : al.Nodup) :
    ∃ d b : String × ℚ,
      (sortByPrice (quotesDep f al q)).head? = some d ∧
      (sortByPrice (quotesBack f al q)).head? = some b ∧
      get_lowest_price f al q =
        some { airlines := d.1 ++ "," ++ b.1, price := d.2 + b.2 } := by
  have hdk : ((sortByPrice (quotesDep f al q)).map Prod.fst).Nodup :=
    sortByPrice_keys_nodup (by rw [quotesDep_keys]; exact hnd)
  have hbk : ((sortByPrice (quotesBack f al q)).map Prod.fst).Nodup :=
    sortByPrice_keys_nodup (by rw [quotesBack_keys]; exact hnd)
  have hdne : sortByPrice (quotesDep f al q) ≠ [] := by
    intro h
    have := (sortByPrice_perm (quotesDep f al q)).length_eq
    rw [h, quotesDep_length] at this
    exact hne (List.length_eq_zero.mp this.symm)
  have hbne : sortByPrice (quotesBack f al q) ≠ [] := by
    intro h
    have := (sortByPrice_perm (quotesBack f al q)).length_eq
    rw [h, quotesBack_length] at this
    exact hne (List.length_eq_zero.mp this.symm)
  obtain ⟨d, ds, hd⟩ := List.exists_cons_of_ne_nil hdne
  obtain ⟨b, bs, hb⟩ := List.exists_cons_of_ne_nil hbne
  refine ⟨d, b, by rw [hd]; rfl, by rw [hb]; rfl, ?_⟩
  have hdm : d ∈ sortByPrice (quotesDep f al q) := by rw [hd]; exact List.mem_cons_self d ds
  have hbm : b ∈ sortByPrice (quotesBack f al q) := by rw [hb]; exact List.mem_cons_self b bs
  simp only [get_lowest_price, hd, hb, List.map_cons, List.head?_cons]
  rw [← hd, ← hb, dictGet_eq_of_mem hdk hdm, dictGet_eq_of_mem hbk hbm]

end FlightApp

namespace FlightApp

/-! ### Concrete witnesses: the spec's worked scenario -/

/-- Outbound quotes of the concrete test oracle (the scenario of the spec:
IndiGo 100, Air India 80, SpiceJet 120, Vistara 90). -/
def depPrice (a : String) : ℚ :=
  if a = "IndiGo" then 100 else if a = "Air India" then 80
  else if a = "SpiceJet" then 120 else 90

/-- Return quotes of the concrete test oracle (IndiGo 60, Air India 70,
SpiceJet 50, Vistara 65). -/
def backPrice (a : String) : ℚ :=
  if a = "IndiGo" then 60 else if a = "Air India" then 70
  else if a = "SpiceJet" then 50 else 65

/-- A concrete deterministic oracle; it tells the outbound call from the
return call by the date argument. -/
def oracle₀ : Oracle := fun a d _ _ _ _ _ =>
  if d = "2023-01-01" then depPrice a else backPrice a

/-- A concrete route query. -/
def query₀ : RouteQuery :=
  { dep := "Tomsk", dest := "Moscow", depdate := "2023-01-01", backdate := "2023-01-05" }

/-- A concrete model whose raw prediction has a fractional part. -/
def model₀ : Oracle := fun _ _ _ _ _ _ _ => 201 / 2

/-! ### Claim theorems -/

/-- Claim C1: the handlers gather quotes through `analysis.get_predict`; the
claim asserts the analysis module defines such a callable so the loop cannot
fail name resolution. This is false of the code: the analysis module defines
only `get_num`, so the attribute access does not resolve and every request to
either endpoint raises AttributeError at the first loop iteration. -/
theorem routes_oracle_attribute_unresolvable :
    resolvesOn analysisModuleFunctions routesOracleAttribute = false := by
  decide

/-- Claim C3 counterexample: invoked with an empty candidate airline set, the
single-cheapest handler hits the out-of-range subscript `dest_airlines[0]`
(modelled by `none`) and the all-combinations handler silently returns an
empty prices list; neither raises an explicit configuration error. -/
theorem empty_airlines_counterexample :
    get_lowest_price oracle₀ [] query₀ = none ∧ get_predict oracle₀ [] query₀ = [] :=
  ⟨rfl, rfl⟩

/-- Claim C3 (amended): for every oracle and route query, an empty candidate
airline set makes the single-cheapest handler fail with the empty-sequence
subscript fault and makes the all-combinations handler return an empty list;
no explicit configuration error exists on either path. -/
theorem empty_airlines_behavior (f : Oracle) (q : RouteQuery) :
    get_lowest_price f [] q = none ∧ get_predict f [] q = [] :=
  ⟨rfl, rfl⟩

/-- Claim C8: the sort both handlers apply to the quote collections is stable:
for every assignment of quote values and every price p, the entries quoting p
keep exactly the relative order the candidate airline set gave them. -/
theorem sort_stable_tie_break (f : Oracle) (al : List String) (q : RouteQuery) (p : ℚ) :
    (sortByPrice (quotesDep f al q)).filter (fun x => decide (x.2 = p)) =
      (quotesDep f al q).filter (fun x => decide (x.2 = p)) ∧
    (sortByPrice (quotesBack f al q)).filter (fun x => decide (x.2 = p)) =
      (quotesBack f al q).filter (fun x => decide (x.2 = p)) :=
  ⟨sortByPrice_filter_price _ p, sortByPrice_filter_price _ p⟩

/-- Claim C9 counterexample: on a model predicting 100.5, the oracle wrapper
get_num returns 100, not the raw prediction: the fractional part is
discarded by int(). -/
theorem get_num_truncates_counterexample :
    ¬ ((get_num model₀ "IndiGo" "2023-01-01" "Tomsk" "Moscow" totalStops noInfo 1 : ℚ) =
        model₀ "IndiGo" "2023-01-01" "Tomsk" "Moscow" totalStops noInfo 1) := by
  norm_num [get_num, pyInt, model₀]

/-- Claim C9 (amended): get_num returns the model's raw prediction truncated
to an integer (Python int()); for a non-negative prediction the returned
value is its floor, so predictions with a fractional part are not returned
exactly. -/
theorem get_num_truncation_bounds (model : Oracle)
    (a d s t st ai : String) (r : ℚ) (h : 0 ≤ model a d s t st ai r) :
    ((get_num model a d s t st ai r : ℤ) : ℚ) ≤ model a d s t st ai r ∧
    model a d s t st ai r < ((get_num model a d s t st ai r : ℤ) : ℚ) + 1 := by
  rw [get_num, pyInt, if_pos h]
  exact ⟨Int.floor_le _, Int.lt_floor_add_one _⟩

/-- Witness for the amended C9 theorem at the concrete model. -/
theorem get_num_truncation_bounds_witness :
    0 ≤ model₀ "IndiGo" "2023-01-01" "Tomsk" "Moscow" totalStops noInfo 1 ∧
    (((get_num model₀ "IndiGo" "2023-01-01" "Tomsk" "Moscow" totalStops noInfo 1 : ℤ) : ℚ) ≤
        model₀ "IndiGo" "2023-01-01" "Tomsk" "Moscow" totalStops noInfo 1 ∧
      model₀ "IndiGo" "2023-01-01" "Tomsk" "Moscow" totalStops noInfo 1 <
        ((get_num model₀ "IndiGo" "2023-01-01" "Tomsk" "Moscow" totalStops noInfo 1 : ℤ) : ℚ) + 1) :=
  ⟨by norm_num [model₀],
    get_num_truncation_bounds model₀ "IndiGo" "2023-01-01" "Tomsk" "Moscow" totalStops noInfo 1
      (by norm_num [model₀])⟩

/-- Claim C10: with a deterministic oracle (two oracle functions agreeing on
every input), both handlers are deterministic: identical inputs yield
identical airline strings and prices. -/
theorem handlers_deterministic (f g : Oracle) (al : List String) (q : RouteQuery)
    (h : ∀ a d s t st ai r, f a d s t st ai r = g a d s t st ai r) :
    get_predict f al q = get_predict g al q ∧
    get_lowest_price f al q = get_lowest_price g al q := by
  have hfg : f = g := by
    funext a d s t st ai r
    exact h a d s t st ai r
  subst hfg
  exact ⟨rfl, rfl⟩

/-- Witness for C10 at the concrete oracle and query. -/
theorem handlers_deterministic_witness :
    get_predict oracle₀ airlines query₀ = get_predict oracle₀ airlines query₀ ∧
    get_lowest_price oracle₀ airlines query₀ = get_lowest_price oracle₀ airlines query₀ :=
  handlers_deterministic oracle₀ oracle₀ airlines query₀ (fun _ _ _ _ _ _ _ => rfl)

end FlightApp

namespace FlightApp

/-- Claim C4: with distinct candidate airlines, /api/data returns one entry
per rank: the two quote collections are each sorted ascending (entry lists
are permutations of the quote lists), the output has one entry per candidate
airline, and the i-th entry pairs the i-th entry of the sorted outbound list
with the i-th entry of the sorted return list - a positional zip, not a
cross-product - with price (sum of the two quotes) * 1.08, in rank order. -/
theorem get_predict_rank_pairing (f : Oracle) (al : List String) (q : RouteQuery)
    (hnd : al.Nodup) :
    (get_predict f al q).length = al.length ∧
    List.Sorted leQ (sortByPrice (quotesDep f al q)) ∧
    (sortByPrice (quotesDep f al q)).Perm (quotesDep f al q) ∧
    List.Sorted leQ (sortByPrice (quotesBack f al q)) ∧
    (sortByPrice (quotesBack f al q)).Perm (quotesBack f al q) ∧
    get_predict f al q =
      List.zipWith
        (fun d b => { airlines := d.1 ++ "," ++ b.1, price := (d.2 + b.2) * (27/25) : PriceEntry })
        (sortByPrice (quotesDep f al q)) (sortByPrice (quotesBack f al q)) := by
  refine ⟨?_, sortByPrice_sorted _, sortByPrice_perm _, sortByPrice_sorted _,
    sortByPrice_perm _, get_predict_eq_zipWith f al q hnd⟩
  rw [get_predict_eq_zipWith f al q hnd, List.length_zipWith,
    (sortByPrice_perm _).length_eq, (sortByPrice_perm _).length_eq,
    quotesDep_length, quotesBack_length, min_self]

/-- Witness for C4 at the concrete oracle and query. -/
theorem get_predict_rank_pairing_witness :
    airlines.Nodup ∧
    ((get_predict oracle₀ airlines query₀).length = airlines.length ∧
      List.Sorted leQ (sortByPrice (quotesDep oracle₀ airlines query₀)) ∧
      (sortByPrice (quotesDep oracle₀ airlines query₀)).Perm (quotesDep oracle₀ airlines query₀) ∧
      List.Sorted leQ (sortByPrice (quotesBack oracle₀ airlines query₀)) ∧
      (sortByPrice (quotesBack oracle₀ airlines query₀)).Perm (quotesBack oracle₀ airlines query₀) ∧
      get_predict oracle₀ airlines query₀ =
        List.zipWith
          (fun d b => { airlines := d.1 ++ "," ++ b.1, price := (d.2 + b.2) * (27/25) : PriceEntry })
          (sortByPrice (quotesDep oracle₀ airlines query₀))
          (sortByPrice (quotesBack oracle₀ airlines query₀))) :=
  ⟨by decide, get_predict_rank_pairing oracle₀ airlines query₀ (by decide)⟩

/-- Claim C7: with distinct candidate airlines, the combined prices returned
by /api/data are ascending: the i-th price is the markup of the sum of the
i-th elements of two independently ascending lists. -/
theorem get_predict_prices_sorted (f : Oracle) (al : List String) (q : RouteQuery)
    (hnd : al.Nodup) :
    List.Sorted (fun a b : ℚ => a ≤ b) ((get_predict f al q).map PriceEntry.price) := by
  rw [get_predict_eq_zipWith f al q hnd, List.map_zipWith]
  exact sorted_zipWith_markup (by norm_num) _ _ (sortByPrice_sorted _) (sortByPrice_sorted _)

/-- Witness for C7 at the concrete oracle and query. -/
theorem get_predict_prices_sorted_witness :
    airlines.Nodup ∧
    List.Sorted (fun a b : ℚ => a ≤ b)
      ((get_predict oracle₀ airlines query₀).map PriceEntry.price) :=
  ⟨by decide, get_predict_prices_sorted oracle₀ airlines query₀ (by decide)⟩

/-- Claim C5: for every non-empty duplicate-free candidate set the lowestcost
handler picks an outbound airline whose outbound quote is minimal among all
candidates and, independently, a return airline whose return quote is
minimal; the returned entry joins their names and sums their own quotes. -/
theorem lowestcost_minimality (f : Oracle) (al : List String) (q : RouteQuery)
    (hne : al ≠ []) (hnd : al.Nodup) :
    ∃ d b : String × ℚ,
      get_lowest_price f al q = some { airlines := d.1 ++ "," ++ b.1, price := d.2 + b.2 } ∧
      d.1 ∈ al ∧ b.1 ∈ al ∧
      d.2 = f d.1 q.depdate q.dep q.dest totalStops noInfo 1 ∧
      b.2 = f b.1 q.backdate q.dest q.dep totalStops noInfo 1 ∧
      (∀ a ∈ al, d.2 ≤ f a q.depdate q.dep q.dest totalStops noInfo 1) ∧
      (∀ a ∈ al, b.2 ≤ f a q.backdate q.dest q.dep totalStops noInfo 1) := by
  obtain ⟨d, b, hd, hb, heq⟩ := get_lowest_price_eq_heads f al q hne hnd
  have hdm : d ∈ sortByPrice (quotesDep f al q) := List.mem_of_mem_head? hd
  have hbm : b ∈ sortByPrice (quotesBack f al q) := List.mem_of_mem_head? hb
  have hdq : d ∈ quotesDep f al q := (sortByPrice_perm _).mem_iff.mp hdm
  have hbq : b ∈ quotesBack f al q := (sortByPrice_perm _).mem_iff.mp hbm
  obtain ⟨ad, had, hadd⟩ := List.mem_map.mp hdq
  obtain ⟨ab, hab, habb⟩ := List.mem_map.mp hbq
  refine ⟨d, b, heq, ?_, ?_, ?_, ?_, ?_, ?_⟩
  · rw [← hadd]; exact had
  · rw [← habb]; exact hab
  · rw [← hadd]
  · rw [← habb]
  · intro a ha
    have hmem : (a, f a q.depdate q.dep q.dest totalStops noInfo 1) ∈ quotesDep f al q :=
      List.mem_map_of_mem _ ha
    exact head_price_min (sortByPrice_sorted _) hd _ ((sortByPrice_perm _).mem_iff.mpr hmem)
  · intro a ha
    have hmem : (a, f a q.backdate q.dest q.dep totalStops noInfo 1) ∈ quotesBack f al q :=
      List.mem_map_of_mem _ ha
    exact head_price_min (sortByPrice_sorted _) hb _ ((sortByPrice_perm _).mem_iff.mpr hmem)

/-- Witness for C5 at the concrete oracle and query. -/
theorem lowestcost_minimality_witness :
    airlines ≠ [] ∧ airlines.Nodup ∧
    ∃ d b : String × ℚ,
      get_lowest_price oracle₀ airlines query₀ =
        some { airlines := d.1 ++ "," ++ b.1, price := d.2 + b.2 } ∧
      d.1 ∈ airlines ∧ b.1 ∈ airlines ∧
      d.2 = oracle₀ d.1 query₀.depdate query₀.dep query₀.dest totalStops noInfo 1 ∧
      b.2 = oracle₀ b.1 query₀.backdate query₀.dest query₀.dep totalStops noInfo 1 ∧
      (∀ a ∈ airlines, d.2 ≤ oracle₀ a query₀.depdate query₀.dep query₀.dest totalStops noInfo 1) ∧
      (∀ a ∈ airlines, b.2 ≤ oracle₀ a query₀.backdate query₀.dest query₀.dep totalStops noInfo 1) :=
  ⟨by decide, by decide, lowestcost_minimality oracle₀ airlines query₀ (by decide) (by decide)⟩

/-- Claim C2 counterexample: on the spec's own worked scenario (outbound
minimum 80, return minimum 50) the lowestcost handler returns price 130, the
bare sum of the two minima; the claimed value (80 + 50) * 1.08 = 140.4 is not
returned, because the handler applies no markup. -/
theorem lowestcost_markup_counterexample :
    get_lowest_price oracle₀ airlines query₀ =
      some { airlines := "Air India,SpiceJet", price := 130 } ∧
    (130 : ℚ) ≠ (80 + 50) * (27/25) := by
  constructor
  · simp [get_lowest_price, quotesDep, quotesBack, airlines, query₀, oracle₀, depPrice,
      backPrice, sortByPrice, List.insertionSort, List.orderedInsert, leQ, dictGet,
      totalStops, noInfo, List.lookup]
    norm_num
    decide
  · norm_num

/-- Claim C2 (amended): for every non-empty duplicate-free candidate set, the
lowestcost handler returns exactly (minimum outbound quote + minimum return
quote) with no markup factor applied. -/
theorem lowestcost_price_eq_min_sum_no_markup (f : Oracle) (al : List String)
    (q : RouteQuery) (hne : al ≠ []) (hnd : al.Nodup) :
    ∃ d b : String × ℚ,
      d ∈ quotesDep f al q ∧ b ∈ quotesBack f al q ∧
      (∀ x ∈ quotesDep f al q, d.2 ≤ x.2) ∧
      (∀ x ∈ quotesBack f al q, b.2 ≤ x.2) ∧
      get_lowest_price f al q = some { airlines := d.1 ++ "," ++ b.1, price := d.2 + b.2 } := by
  obtain ⟨d, b, hd, hb, heq⟩ := get_lowest_price_eq_heads f al q hne hnd
  refine ⟨d, b, (sortByPrice_perm _).mem_iff.mp (List.mem_of_mem_head? hd),
    (sortByPrice_perm _).mem_iff.mp (List.mem_of_mem_head? hb), ?_, ?_, heq⟩
  · intro x hx
    exact head_price_min (sortByPrice_sorted _) hd x ((sortByPrice_perm _).mem_iff.mpr hx)
  · intro x hx
    exact head_price_min (sortByPrice_sorted _) hb x ((sortByPrice_perm _).mem_iff.mpr hx)

/-- Witness for the amended C2 theorem at the concrete oracle and query. -/
theorem lowestcost_price_eq_min_sum_no_markup_witness :
    airlines ≠ [] ∧ airlines.Nodup ∧
    ∃ d b : String × ℚ,
      d ∈ quotesDep oracle₀ airlines query₀ ∧ b ∈ quotesBack oracle₀ airlines query₀ ∧
      (∀ x ∈ quotesDep oracle₀ airlines query₀, d.2 ≤ x.2) ∧
      (∀ x ∈ quotesBack oracle₀ airlines query₀, b.2 ≤ x.2) ∧
      get_lowest_price oracle₀ airlines query₀ =
        some { airlines := d.1 ++ "," ++ b.1, price := d.2 + b.2 } :=
  ⟨by decide, by decide,
    lowestcost_price_eq_min_sum_no_markup oracle₀ airlines query₀ (by decide) (by decide)⟩

/-- Unfolding of the call trace over the head airline. -/
theorem oracleCallTrace_cons (x : String) (t : List String) (q : RouteQuery) :
    oracleCallTrace (x :: t) q =
      [{ airline := x, date := q.depdate, source := q.dep, destination := q.dest },
       { airline := x, date := q.backdate, source := q.dest, destination := q.dep }] ++
        oracleCallTrace t q := rfl

/-- Airlines absent from the candidate list receive no oracle call. -/
theorem oracleCallTrace_filter_of_not_mem {al : List String} {a : String}
    (h : a ∉ al) (q : RouteQuery) :
    (oracleCallTrace al q).filter (fun c => decide (c.airline = a)) = [] := by
  induction al with
  | nil => rfl
  | cons x t ih =>
    have hxa : ¬ (x = a) := fun he => h (he ▸ List.mem_cons_self x t)
    have hat : a ∉ t := fun ht => h (List.mem_cons_of_mem x ht)
    rw [oracleCallTrace_cons, List.filter_append, ih hat]
    simp [List.filter_cons, hxa]

/-- Claim C6: for every airline of a duplicate-free candidate set, the
quote-gathering loop issues exactly two oracle calls for that airline, in
order: one with (departure_date, departure, destination) and one with
(back_date, destination, departure) - the return call uses the swapped city
pair, never the original one. -/
theorem oracle_calls_per_airline (al : List String) (q : RouteQuery) (a : String)
    (hnd : al.Nodup) (ha : a ∈ al) :
    (oracleCallTrace al q).filter (fun c => decide (c.airline = a)) =
      [{ airline := a, date := q.depdate, source := q.dep, destination := q.dest },
       { airline := a, date := q.backdate, source := q.dest, destination := q.dep }] := by
  induction al with
  | nil => cases ha
  | cons x t ih =>
    rcases List.mem_cons.mp ha with rfl | hat
    · have hxt : a ∉ t := (List.nodup_cons.mp hnd).1
      rw [oracleCallTrace_cons, List.filter_append,
        oracleCallTrace_filter_of_not_mem hxt q]
      simp [List.filter_cons]
    · have hxa : ¬ (x = a) := fun he => (List.nodup_cons.mp hnd).1 (he ▸ hat)
      rw [oracleCallTrace_cons, List.filter_append, ih (List.nodup_cons.mp hnd).2 hat]
      simp [List.filter_cons, hxa]

/-- Witness for C6 at the concrete query and the airline IndiGo. -/
theorem oracle_calls_per_airline_witness :
    airlines.Nodup ∧ "IndiGo" ∈ airlines ∧
    (oracleCallTrace airlines query₀).filter (fun c => decide (c.airline = "IndiGo")) =
      [{ airline := "IndiGo", date := query₀.depdate, source := query₀.dep,
         destination := query₀.dest },
       { airline := "IndiGo", date := query₀.backdate, source := query₀.dest,
         destination := query₀.dep }] :=
  ⟨by decide, by decide,
    oracle_calls_per_airline airlines query₀ "IndiGo" (by decide) (by decide)⟩

end FlightApp
